import Mathlib

/-!
Verification of the MarketMiner field-reconciliation engine and dynamic
schema builder (src/scraping/amazon_scrapper.py, src/scraping/flipkart_scrapper.py).

Modelling conventions:
* Python strings are Lean `String`s; per-character operations work on `String.data`.
* Python integers are `ℤ` (arbitrary precision, as in Python).
* Python float arithmetic on the price fields is modelled exactly: every float
  expression appearing in the source is a ratio of integers, represented by its
  numerator and denominator; `round` is Python's banker's rounding (round half
  to even), modelled by `roundHalfEven`.
* Python `None` for a missing numeric value is `Option.none`.
-/

/-- Python whitespace characters (`\s` over the ASCII range used by the scraped text). -/
def pyIsSpace (c : Char) : Bool :=
  c == ' ' || c == '\t' || c == '\n' || c == '\r' || c == '\x0b' || c == '\x0c'

/-- Python `str.strip()` on a character list. -/
def stripChars (l : List Char) : List Char :=
  ((l.dropWhile pyIsSpace).reverse.dropWhile pyIsSpace).reverse

/-- Python `str.strip()`. -/
def pyStrip (s : String) : String :=
  String.mk (stripChars s.data)

/-- `re.sub(r'\s+', ' ', text)`: collapse every maximal whitespace run to one space. -/
def collapseWs : List Char → List Char
  | [] => []
  | [c] => if pyIsSpace c then [' '] else [c]
  | c :: d :: cs =>
    if pyIsSpace c then
      if pyIsSpace d then collapseWs (d :: cs)
      else ' ' :: collapseWs (d :: cs)
    else c :: collapseWs (d :: cs)

/-- `clean_text` (amazon_scrapper.py:127, flipkart_scrapper.py): empty text maps to
the default `''`; otherwise strip, then collapse internal whitespace runs. -/
def clean_text (text : String) : String :=
  if text = "" then ""
  else String.mk (collapseWs (stripChars text.data))

/-- Value of a digit string (most significant digit first). -/
def digitsVal (l : List Char) : ℕ :=
  l.foldl (fun a c => 10 * a + (c.toNat - 48)) 0

/-- `extract_price` (amazon_scrapper.py:137, flipkart_scrapper.py:182): keep digits
and dots, coerce via `str(int(float(...)))`, empty string on `ValueError`.
`float(t)` on the filtered text parses iff `t` has at least one digit and at most
one dot; `int` then truncates the (non-negative) value toward zero, the digit
value of the integer part. This is the exact (error-free) value semantics: the
source's `float` rounds to 53-bit precision — above `2^53` the two differ — and
for a value at or above the IEEE double overflow threshold `2^1024 - 2^970` it
returns `inf`, on which `int` raises an OverflowError that the
`except ValueError` clause does not catch; that uncaught error path is modelled
separately by `extract_price_overflows`. -/
def extract_price (price_text : String) : String :=
  if price_text = "" then ""
  else
    let t := price_text.data.filter fun c => c.isDigit || c == '.'
    if t.any Char.isDigit && t.count '.' ≤ 1 then
      toString (digitsVal (t.takeWhile fun c => c ≠ '.'))
    else ""

/-- `extract_discount` (amazon_scrapper.py:149, flipkart_scrapper.py:194): keep only
the digits of the discount text. -/
def extract_discount (discount_text : String) : String :=
  if discount_text = "" then ""
  else String.mk (discount_text.data.filter Char.isDigit)

/-- Leftmost match of the Amazon rating regex `(\d+\.\d+)` (`re.search`): a maximal
digit run immediately followed by a dot and a digit; the match takes the run, the
dot, and the maximal digit run after the dot. -/
def azRatingSearch : List Char → Option (List Char)
  | [] => none
  | c :: cs =>
    if c.isDigit then
      match cs.dropWhile Char.isDigit with
      | '.' :: d :: t =>
        if d.isDigit then
          some ((c :: cs.takeWhile Char.isDigit) ++ '.' :: d :: t.takeWhile Char.isDigit)
        else azRatingSearch cs
      | _ => azRatingSearch cs
    else azRatingSearch cs

/-- `extract_rating` (amazon_scrapper.py:157): the first `\d+\.\d+` match, else `''`.
A bare-integer rating text has no match. -/
def extract_rating (rating_text : String) : String :=
  if rating_text = "" then ""
  else
    match azRatingSearch rating_text.data with
    | some m => String.mk m
    | none => ""

/-- Leftmost match of the Flipkart rating regex `(\d+(?:\.\d+)?)` (`re.search`): a
maximal digit run, greedily extended by a dot and a following digit run when present. -/
def fkRatingSearch : List Char → Option (List Char)
  | [] => none
  | c :: cs =>
    if c.isDigit then
      match cs.dropWhile Char.isDigit with
      | '.' :: d :: t =>
        if d.isDigit then
          some ((c :: cs.takeWhile Char.isDigit) ++ '.' :: d :: t.takeWhile Char.isDigit)
        else some (c :: cs.takeWhile Char.isDigit)
      | _ => some (c :: cs.takeWhile Char.isDigit)
    else fkRatingSearch cs

/-- `extract_rating` (flipkart_scrapper.py:202): first `\d+(\.\d+)?` match; a match
without a dot (bare integer) gets `".0"` appended; `''` when there is no match. -/
def flipkart_extract_rating (rating_text : String) : String :=
  if rating_text = "" then ""
  else
    match fkRatingSearch rating_text.data with
    | some m => if '.' ∈ m then String.mk m else String.mk m ++ ".0"
    | none => ""

/-- First match of `re.findall(r'[\d,]+', ...)`: the leftmost maximal run of digits
and commas. -/
def firstDigitCommaRun : List Char → Option (List Char)
  | [] => none
  | c :: cs =>
    if c.isDigit || c == ',' then
      some (c :: cs.takeWhile fun x => x.isDigit || x == ',')
    else firstDigitCommaRun cs

/-- `extract_reviews_count` (amazon_scrapper.py:168, flipkart_scrapper.py:221): the
first digit/comma run with commas removed, else `''`. -/
def extract_reviews_count (reviews_text : String) : String :=
  if reviews_text = "" then ""
  else
    match firstDigitCommaRun reviews_text.data with
    | some run => String.mk (run.filter fun c => c ≠ ',')
    | none => ""

/-- `int(x) if x else None` applied to an extractor output (always a digit string
when non-empty, so `int` is the digit value). -/
def pyIntOpt (s : String) : Option ℤ :=
  if s = "" then none else some (digitsVal s.data : ℤ)

/-- `str(v) if v is not None else ''`. -/
def optIntStr : Option ℤ → String
  | none => ""
  | some v => toString v

/-- Python banker's rounding (`round`) of the exact fraction `a / b` for `b > 0`:
nearest integer, ties to even. `q` is the floor of `a / b` and `r = a - q*b` its
remainder, so `a / b` is below, above, or at the half point as `2*r` compares
with `b`. -/
def roundHalfEvenPos (a b : ℤ) : ℤ :=
  let q := Int.fdiv a b
  let r := a - q * b
  if 2 * r < b then q
  else if b < 2 * r then q + 1
  else if q % 2 = 0 then q else q + 1

/-- Python banker's rounding of the exact fraction `a / b`, any sign of `b`
(`b = 0` never occurs: every division in `preprocess_data` is guarded). -/
def roundHalfEven (a b : ℤ) : ℤ :=
  if b < 0 then roundHalfEvenPos (-a) (-b) else roundHalfEvenPos a b

/-- The custom rules and fill steps of `preprocess_data`
(amazon_scrapper.py:198-221, flipkart_scrapper.py:459-483), on the parsed
`(mrp_val, current_val, discount_val_num)`; returns the triple after the fills.
The `try` block cannot raise: each division is guarded (`mrp_val != 0`,
`discount_val_num != 100`). -/
def ruleSteps (mrp0 cur0 disc0 : Option ℤ) : Option ℤ × Option ℤ × Option ℤ :=
  -- rule 1: if MRP is missing (or 0) but Current Price is available and non-zero
  let s1 := if (mrp0 = none ∨ mrp0 = some 0) ∧ ¬cur0 = none ∧ ¬cur0 = some 0
            then (cur0, some (0 : ℤ)) else (mrp0, disc0)
  let m1 := s1.1
  let d1 := s1.2
  -- rule 2: if discount is negative (and present) and MRP is present
  let s2 := match d1, m1 with
    | some dv, some _ => if dv < 0 then (m1, some (0 : ℤ)) else (cur0, d1)
    | _, _ => (cur0, d1)
  let c2 := s2.1
  let d2 := s2.2
  -- fill current: round(mrp * (1 - discount/100)), exactly mrp*(100-discount) / 100
  let c3 := match c2, m1, d2 with
    | none, some mv, some dv => some (roundHalfEven (mv * (100 - dv)) 100)
    | _, _, _ => c2
  -- fill discount: round((mrp - current) / mrp * 100), exactly (mrp-current)*100 / mrp
  -- (skip if mrp == 0)
  let d3 := match d2, m1, c3 with
    | none, some mv, some cv =>
      if mv ≠ 0 then some (roundHalfEven ((mv - cv) * 100) mv) else none
    | _, _, _ => d2
  -- fill mrp: round(current / (1 - discount/100)), exactly current*100 / (100-discount)
  -- (skip if discount == 100)
  let m3 := match m1, c3, d3 with
    | none, some cv, some dv =>
      if dv ≠ 100 then some (roundHalfEven (cv * 100) (100 - dv)) else none
    | _, _, _ => m1
  (m3, c3, d3)

/-- The 5%-band consistency correction of `preprocess_data`
(amazon_scrapper.py:223-235, flipkart_scrapper.py:485-496): when MRP and Discount
are present, an observed Current Price outside `[expected*0.95, expected*1.05]`
(floats modelled as exact rationals: `e*0.95 <= c <= e*1.05` iff
`19*e <= 20*c` and `20*c <= 21*e`) is overwritten with
`expected = round(mrp * (1 - discount/100))`; an absent one is set to it. -/
def correctionStep (m c d : Option ℤ) : Option ℤ :=
  match m, d with
  | some mv, some dv =>
    let e : ℤ := roundHalfEven (mv * (100 - dv)) 100
    match c with
    | some cv =>
      if 19 * e ≤ 20 * cv ∧ 20 * cv ≤ 21 * e then some cv
      else some e
    | none => some e
  | _, _ => c

/-- The full numeric pipeline of `preprocess_data` on the parsed price triple:
custom rules, fill steps, then the consistency correction (identical in
amazon_scrapper.py and flipkart_scrapper.py). -/
def reconcileTriangle (mrp0 cur0 disc0 : Option ℤ) : Option ℤ × Option ℤ × Option ℤ :=
  let r := ruleSteps mrp0 cur0 disc0
  (r.1, correctionStep r.1 r.2.1 r.2.2, r.2.2)

/-- Raw extraction handed to `preprocess_data` (amazon_scrapper.py:310-320):
each field is a raw scraped string, `''` when absent. -/
structure RawItem where
  title : String
  brand : String
  mrp : String
  currentPrice : String
  discount : String
  rating : String
  reviews : String

/-- The record produced by Amazon `preprocess_data`; numeric fields are rendered
back to strings (`''` for a missing value). -/
structure AmazonRecord where
  title : String
  brand : String
  mrp : String
  currentPrice : String
  discount : String
  rating : String
  reviews : String

/-- The parsed price triple of an item after reconciliation: the numeric values
`(mrp_val, current_val, discount_val_num)` at the end of the numeric part of
`preprocess_data` (amazon_scrapper.py:189-235). -/
def parsedTriangle (item : RawItem) : Option ℤ × Option ℤ × Option ℤ :=
  reconcileTriangle
    (pyIntOpt (extract_price (clean_text item.mrp)))
    (pyIntOpt (extract_price (clean_text item.currentPrice)))
    (pyIntOpt (extract_discount (clean_text item.discount)))

/-- `preprocess_data` (amazon_scrapper.py:182-247): clean all text fields, parse
the price triple, run the custom rules / fill steps / correction, render the
triple back to strings, and extract rating and reviews. -/
def preprocess_data (item : RawItem) : AmazonRecord :=
  let t := parsedTriangle item
  { title := clean_text item.title
    brand := clean_text item.brand
    mrp := optIntStr t.1
    currentPrice := optIntStr t.2.1
    discount := optIntStr t.2.2
    rating := extract_rating (clean_text item.rating)
    reviews := extract_reviews_count (clean_text item.reviews) }

/-- The uncaught error path of `extract_price` (amazon_scrapper.py:137-147):
`float(t)` on a parseable digits-and-dot text rounds to nearest, so it returns
`inf` exactly when the text's value is at or above the IEEE double overflow
threshold `2^1024 - 2^970` (the midpoint above the largest double
`2^1024 - 2^971`); `int(inf)` then raises an OverflowError that the
`except ValueError` clause does not catch. The fractional part is below one, so
the comparison reduces to the integer part. -/
def extract_price_overflows (price_text : String) : Bool :=
  if price_text = "" then false
  else
    let t := price_text.data.filter fun c => c.isDigit || c == '.'
    if t.any Char.isDigit && t.count '.' ≤ 1 then
      decide (2 ^ 1024 - 2 ^ 970 ≤ digitsVal (t.takeWhile fun c => c ≠ '.'))
    else false

/-- Whether Python `preprocess_data` raises (amazon_scrapper.py:182-247): the only
statements that can raise an uncaught exception are the two `extract_price`
calls on the MRP and Current Price texts (`extract_discount`, `extract_rating`
and `extract_reviews_count` cannot raise, `int` on a Python int or digit string
cannot raise, and every division in the fill/correction blocks is guarded and
wrapped in `try`). The total function `preprocess_data` above is the source's
behaviour exactly when this is `false`. -/
def preprocess_data_raises (item : RawItem) : Bool :=
  extract_price_overflows (clean_text item.mrp) ||
  extract_price_overflows (clean_text item.currentPrice)

/-- Raw extraction handed to Flipkart's `preprocess_data`
(flipkart_scrapper.py:443-509), which carries separate ratings/reviews counts. -/
structure FkRawItem where
  title : String
  brand : String
  mrp : String
  currentPrice : String
  discount : String
  rating : String
  ratingsCount : String
  reviewsCount : String

/-- The record produced by Flipkart `preprocess_data`. -/
structure FlipkartRecord where
  title : String
  brand : String
  mrp : String
  currentPrice : String
  discount : String
  rating : String
  ratingsCount : String
  reviewsCount : String

/-- `preprocess_data` (flipkart_scrapper.py:443-509): identical price-triangle
pipeline; rating uses the Flipkart `extract_rating`, and the two count fields use
`extract_reviews_count`. -/
def flipkart_preprocess_data (item : FkRawItem) : FlipkartRecord :=
  let t := reconcileTriangle
    (pyIntOpt (extract_price (clean_text item.mrp)))
    (pyIntOpt (extract_price (clean_text item.currentPrice)))
    (pyIntOpt (extract_discount (clean_text item.discount)))
  { title := clean_text item.title
    brand := clean_text item.brand
    mrp := optIntStr t.1
    currentPrice := optIntStr t.2.1
    discount := optIntStr t.2.2
    rating := flipkart_extract_rating (clean_text item.rating)
    ratingsCount := extract_reviews_count (clean_text item.ratingsCount)
    reviewsCount := extract_reviews_count (clean_text item.reviewsCount) }

/-- An accumulated item as seen by `write_to_csv`: a reconciled record plus the
`specs` mapping (an association list, first binding wins, `''` when missing).
Amazon items use `reviews`; Flipkart items use the two count fields. -/
structure ScrapedItem where
  url : String
  title : String
  brand : String
  mrp : String
  currentPrice : String
  discount : String
  rating : String
  reviews : String
  ratingsCount : String
  reviewsCount : String
  specs : List (String × String)

/-- `specs.get(key, '')`. -/
def dictGet (specs : List (String × String)) (k : String) : String :=
  match specs.find? (fun p => p.1 == k) with
  | some p => p.2
  | none => ""

/-- The counting test of `write_to_csv` (amazon_scrapper.py:352, flipkart
analogue): `value and str(value).strip()`. -/
def countsNonEmpty (v : String) : Bool :=
  !(v == "") && !(pyStrip v == "")

/-- `spec_counts[key]` over an item list (amazon_scrapper.py:345-353): the number
of items whose specs hold a non-empty, non-whitespace value for `key`. -/
def spec_counts (items : List ScrapedItem) (k : String) : ℕ :=
  (items.filter fun it => countsNonEmpty (dictGet it.specs k)).length

/-- `int(0.4 * total_items)` (amazon_scrapper.py:356): float truncation, i.e.
`floor(2*N/5)`. -/
def amazonThreshold (items : List ScrapedItem) : ℕ :=
  2 * items.length / 5

/-- The seen-set deduplication loop of `write_to_csv`
(amazon_scrapper.py:359-365): keep the first occurrence of each key. -/
def dedupSeen : List String → List String → List String
  | _, [] => []
  | seen, x :: xs =>
    if x ∈ seen then dedupSeen seen xs else x :: dedupSeen (x :: seen) xs

/-- `unique_filtered_spec_keys` of the Amazon writer (amazon_scrapper.py:355-365):
spec keys whose count over all items reaches `int(0.4 * total_items)`, sorted
alphabetically and deduplicated. -/
def amazonFilteredKeys (allKeys : List String) (items : List ScrapedItem) : List String :=
  dedupSeen []
    (List.insertionSort (fun a b => a ≤ b)
      (allKeys.filter fun k => decide (amazonThreshold items ≤ spec_counts items k)))

/-- `has_complete_pricing_data` (flipkart_scrapper.py:434-441): MRP, Current Price
and Discount all non-empty after stripping. -/
def has_complete_pricing_data (it : ScrapedItem) : Bool :=
  !(pyStrip it.mrp == "") && !(pyStrip it.currentPrice == "") && !(pyStrip it.discount == "")

/-- The Flipkart writer's eligible items (flipkart_scrapper.py:639-640): only
items with complete pricing data are counted. -/
def fkCompleteItems (items : List ScrapedItem) : List ScrapedItem :=
  items.filter has_complete_pricing_data

/-- `spec_counts[key]` of the Flipkart writer (flipkart_scrapper.py:644-649):
counted over the complete-pricing items only. -/
def flipkart_spec_counts (items : List ScrapedItem) (k : String) : ℕ :=
  spec_counts (fkCompleteItems items) k

/-- `int(0.4 * total_items) if total_items > 0 else 1` (flipkart_scrapper.py:652),
with `total_items` the complete-pricing item count. -/
def flipkartThreshold (items : List ScrapedItem) : ℕ :=
  if 0 < (fkCompleteItems items).length then 2 * (fkCompleteItems items).length / 5 else 1

/-- `unique_filtered_spec_keys` of the Flipkart writer (flipkart_scrapper.py:651-661). -/
def flipkartFilteredKeys (allKeys : List String) (items : List ScrapedItem) : List String :=
  dedupSeen []
    (List.insertionSort (fun a b => a ≤ b)
      (allKeys.filter fun k => decide (flipkartThreshold items ≤ flipkart_spec_counts items k)))

/-- `['URL', 'Title', 'Brand', 'MRP', 'Current Price', 'Discount %', 'Rating',
'Reviews']` (amazon_scrapper.py:342). -/
def amazonConstantFields : List String :=
  ["URL", "Title", "Brand", "MRP", "Current Price", "Discount %", "Rating", "Reviews"]

/-- Flipkart constant fields (flipkart_scrapper.py:632). -/
def flipkartConstantFields : List String :=
  ["URL", "Title", "Brand", "MRP", "Current Price", "Discount %", "Rating",
   "Ratings Count", "Reviews Count"]

/-- `item.get(field, '')` for the constant fields of a row. -/
def itemField (it : ScrapedItem) : String → String
  | "URL" => it.url
  | "Title" => it.title
  | "Brand" => it.brand
  | "MRP" => it.mrp
  | "Current Price" => it.currentPrice
  | "Discount" => it.discount
  | "Rating" => it.rating
  | "Reviews" => it.reviews
  | "Ratings Count" => it.ratingsCount
  | "Reviews Count" => it.reviewsCount
  | _ => ""

/-- One cell of an emitted row (amazon_scrapper.py:390-393 and 397-401): a missing
or whitespace-only value becomes the placeholder `'N/A'`. -/
def cellValue (v : String) : String :=
  if pyStrip v = "" then "N/A" else v

/-- One emitted row (amazon_scrapper.py:382-402): constant fields first (with
`Discount %` read from `Discount`), then the retained spec keys, every cell
placeholdered when missing or blank. -/
def amazonRow (keys : List String) (it : ScrapedItem) : List (String × String) :=
  (amazonConstantFields.map fun f =>
    (f, cellValue (if f = "Discount %" then it.discount else itemField it f)))
  ++ (keys.map fun k => (k, cellValue (dictGet it.specs k)))

/-- The rows written by the Amazon `write_to_csv` (amazon_scrapper.py:377-402):
items with a missing/blank Brand are skipped. -/
def amazonRows (allKeys : List String) (items : List ScrapedItem) :
    List (List (String × String)) :=
  (items.filter fun it => !(pyStrip it.brand == "")).map
    (amazonRow (amazonFilteredKeys allKeys items))

/-- One emitted Flipkart row (flipkart_scrapper.py:691-712). -/
def flipkartRow (keys : List String) (it : ScrapedItem) : List (String × String) :=
  (flipkartConstantFields.map fun f =>
    (f, cellValue (if f = "Discount %" then it.discount else itemField it f)))
  ++ (keys.map fun k => (k, cellValue (dictGet it.specs k)))

/-- The rows written by the Flipkart `write_to_csv` (flipkart_scrapper.py:679-712):
items with a missing/blank Brand or without complete pricing data are skipped. -/
def flipkartRows (allKeys : List String) (items : List ScrapedItem) :
    List (List (String × String)) :=
  ((items.filter fun it => !(pyStrip it.brand == "")).filter has_complete_pricing_data).map
    (flipkartRow (flipkartFilteredKeys allKeys items))

theorem cellValue_ne_empty (v : String) : cellValue v ≠ "" := by
  unfold cellValue
  split
  · decide
  · intro h
    rename_i hs
    rw [h] at hs
    exact hs rfl

theorem mem_dedupSeen (x : String) : ∀ (l seen : List String),
    x ∈ dedupSeen seen l ↔ x ∈ l ∧ x ∉ seen := by
  intro l
  induction l with
  | nil => intro seen; simp [dedupSeen]
  | cons y ys ih =>
    intro seen
    by_cases hy : y ∈ seen
    · rw [dedupSeen, if_pos hy, ih]
      constructor
      · rintro ⟨h1, h2⟩
        exact ⟨List.mem_cons_of_mem _ h1, h2⟩
      · rintro ⟨h1, h2⟩
        rcases List.mem_cons.1 h1 with rfl | h1
        · exact absurd hy h2
        · exact ⟨h1, h2⟩
    · rw [dedupSeen, if_neg hy]
      by_cases hxy : x = y
      · subst hxy
        simp [hy]
      · rw [List.mem_cons, ih]
        constructor
        · rintro (rfl | ⟨h1, h2⟩)
          · exact absurd rfl hxy
          · refine ⟨List.mem_cons_of_mem _ h1, fun hc => h2 (List.mem_cons_of_mem _ hc)⟩
        · rintro ⟨h1, h2⟩
          rcases List.mem_cons.1 h1 with rfl | h1
          · exact absurd rfl hxy
          · refine Or.inr ⟨h1, fun hc => ?_⟩
            rcases List.mem_cons.1 hc with rfl | hc
            · exact hxy rfl
            · exact h2 hc

theorem mem_amazonFilteredKeys (allKeys : List String) (items : List ScrapedItem) (k : String) :
    k ∈ amazonFilteredKeys allKeys items ↔
      k ∈ allKeys ∧ amazonThreshold items ≤ spec_counts items k := by
  rw [amazonFilteredKeys, mem_dedupSeen, List.mem_insertionSort, List.mem_filter]
  simp

theorem mem_flipkartFilteredKeys (allKeys : List String) (items : List ScrapedItem) (k : String) :
    k ∈ flipkartFilteredKeys allKeys items ↔
      k ∈ allKeys ∧ flipkartThreshold items ≤ flipkart_spec_counts items k := by
  rw [flipkartFilteredKeys, mem_dedupSeen, List.mem_insertionSort, List.mem_filter]
  simp

/-- A sample accumulated item carrying the spec key `Color` (used as a concrete
schema-builder input). -/
def coloredItem : ScrapedItem :=
  ⟨"u", "t", "B", "1", "1", "0", "", "", "", "", [("Color", "Red")]⟩

/-- A sample accumulated item with no specs. -/
def plainItem : ScrapedItem :=
  ⟨"u", "t", "B", "1", "1", "0", "", "", "", "", []⟩

/-- Three items of which exactly one carries `Color`. -/
def sampleItems3 : List ScrapedItem := [coloredItem, plainItem, plainItem]

/-- An item with specs but an entirely empty pricing triple. -/
def unpricedItem : ScrapedItem :=
  ⟨"u", "t", "B", "", "", "", "", "", "", "", [("Color", "Red")]⟩

/-- Five unpriced items carrying `Color`. -/
def unpricedItems5 : List ScrapedItem :=
  [unpricedItem, unpricedItem, unpricedItem, unpricedItem, unpricedItem]

/-- Claim C2, counterexample: for three accumulated items of which exactly one has
a non-empty `Color` spec, the Amazon writer retains `Color` although its count 1
is below `ceil(0.4*3) = 2`: the code thresholds at `int(0.4*N)` (floor), not
`ceil(0.4*N)`. -/
theorem schema_threshold_ceil_cex :
    "Color" ∈ amazonFilteredKeys ["Color"] sampleItems3 ∧
    spec_counts sampleItems3 "Color" = 1 ∧
    ((spec_counts sampleItems3 "Color" : ℤ) < ⌈(2/5 : ℚ) * (sampleItems3.length : ℚ)⌉) := by
  refine ⟨by decide, by decide, ?_⟩
  have h1 : spec_counts sampleItems3 "Color" = 1 := by decide
  have h2 : sampleItems3.length = 3 := by decide
  rw [h1, h2]
  have h3 : ⌈(2/5 : ℚ) * ((3 : ℕ) : ℚ)⌉ = 2 := by
    rw [Int.ceil_eq_iff]
    norm_num
  rw [h3]
  norm_num

/-- Claim C2 (amended): a spec key is retained by a writer exactly when it is a
known key whose non-empty count reaches the writer's threshold `int(0.4 * N)`
(floor, not ceiling), with `N` all items for Amazon but only the complete-pricing
items for Flipkart (threshold 1 when none); a spec key below the threshold never
appears among the retained spec-key columns. -/
theorem schema_threshold_floor (allKeys : List String) (items : List ScrapedItem)
    (k : String) :
    (k ∈ amazonFilteredKeys allKeys items ↔
      k ∈ allKeys ∧ 2 * items.length / 5 ≤ spec_counts items k) ∧
    (k ∈ flipkartFilteredKeys allKeys items ↔
      k ∈ allKeys ∧ flipkartThreshold items ≤ flipkart_spec_counts items k) := by
  exact ⟨mem_amazonFilteredKeys allKeys items k, mem_flipkartFilteredKeys allKeys items k⟩

/-- Claim C10: the two writer variants differ. The Amazon writer counts and
thresholds over all accumulated items and emits every non-empty-Brand row; the
Flipkart writer counts and thresholds only over items with a complete pricing
triangle and skips rows without one. On five brand-carrying items with `Color`
specs but empty pricing, Amazon retains `Color` and writes five rows while
Flipkart retains nothing and writes no rows. -/
theorem schema_variants_differ :
    spec_counts unpricedItems5 "Color" = 5 ∧
    flipkart_spec_counts unpricedItems5 "Color" = 0 ∧
    (fkCompleteItems unpricedItems5).length = 0 ∧
    amazonFilteredKeys ["Color"] unpricedItems5 = ["Color"] ∧
    flipkartFilteredKeys ["Color"] unpricedItems5 = [] ∧
    amazonFilteredKeys ["Color"] unpricedItems5 ≠ flipkartFilteredKeys ["Color"] unpricedItems5 ∧
    (amazonRows ["Color"] unpricedItems5).length = 5 ∧
    (flipkartRows ["Color"] unpricedItems5).length = 0 := by
  decide

/-- Claim C8: a raw extraction with discount text `"100%"`, absent current price
and absent MRP reconciles with both CurrentPrice and MRP still absent (the
MRP-fill step is skipped, the degenerate division is never taken) and the
discount kept at 100; likewise at the parsed-triple level. -/
theorem discount_hundred_absent (t b r v : String) :
    (preprocess_data ⟨t, b, "", "", "100%", r, v⟩).mrp = "" ∧
    (preprocess_data ⟨t, b, "", "", "100%", r, v⟩).currentPrice = "" ∧
    (preprocess_data ⟨t, b, "", "", "100%", r, v⟩).discount = "100" ∧
    reconcileTriangle none none (some 100) = (none, none, some 100) := by
  refine ⟨rfl, rfl, ?_, rfl⟩
  have h : optIntStr (reconcileTriangle (pyIntOpt (extract_price (clean_text "")))
      (pyIntOpt (extract_price (clean_text "")))
      (pyIntOpt (extract_discount (clean_text "100%")))).2.2 = "100" := by decide
  exact h

/-- Claim C3, counterexample: raw `{Rating:"", Reviews:"120"}` reconciles to
`Rating = ""` (absent), not `Rating = 0` as the claimed defaulting rule states. -/
theorem rating_default_cex :
    (preprocess_data ⟨"t", "b", "", "", "", "", "120"⟩).rating = "" ∧
    (preprocess_data ⟨"t", "b", "", "", "", "", "120"⟩).reviews = "120" ∧
    ("" : String) ≠ "0" := by
  refine ⟨by decide, by decide, by decide⟩

/-- Claim C3 (amended): `preprocess_data` applies no defaulting between Rating and
Reviews: each is extracted from its own raw text independently, and a missing
value stays the empty string. Raw `{Rating:"", Reviews:"120"}` reconciles to
`{Rating:"", Reviews:"120"}`. -/
theorem rating_reviews_independent :
    (preprocess_data ⟨"t", "b", "", "", "", "", "120"⟩).rating = "" ∧
    (preprocess_data ⟨"t", "b", "", "", "", "", "120"⟩).reviews = "120" ∧
    (∀ item : RawItem,
      (preprocess_data item).rating = extract_rating (clean_text item.rating) ∧
      (preprocess_data item).reviews = extract_reviews_count (clean_text item.reviews)) := by
  exact ⟨by decide, by decide, fun item => ⟨rfl, rfl⟩⟩

/-- Claim C6, counterexample: the Amazon `extract_rating` drops a bare-integer
rating text (`"4"` yields `''`, not `"4.0"`); only the Flipkart variant
normalizes it. -/
theorem bare_rating_cex :
    extract_rating "4" = "" ∧ ("" : String) ≠ "4.0" ∧ flipkart_extract_rating "4" = "4.0" := by
  refine ⟨by decide, by decide, by decide⟩

/-- Claim C7, counterexample: MRP text `"abc"` cannot be coerced to a number, yet
the reconciled record carries `MRP = "999"` (filled from Current Price by the
missing-MRP repair), not the empty string. -/
theorem garbage_field_cex :
    extract_price (clean_text "abc") = "" ∧
    (preprocess_data ⟨"t", "b", "abc", "999", "", "", ""⟩).mrp = "999" ∧
    ("999" : String) ≠ "" := by
  refine ⟨by decide, by decide, by decide⟩

theorem reconcileTriangle_eq (m0 c0 d0 : Option ℤ) :
    reconcileTriangle m0 c0 d0 =
      ((ruleSteps m0 c0 d0).1,
       correctionStep (ruleSteps m0 c0 d0).1 (ruleSteps m0 c0 d0).2.1 (ruleSteps m0 c0 d0).2.2,
       (ruleSteps m0 c0 d0).2.2) := rfl

theorem roundHalfEven_cancel (c : ℤ) : roundHalfEven (c * 100) 100 = c := by
  have h : Int.fdiv (c * 100) 100 = c := Int.mul_fdiv_cancel c (by norm_num)
  simp only [roundHalfEven, roundHalfEvenPos, h]
  have h2 : c * 100 - c * 100 = 0 := by ring
  rw [h2]
  norm_num

theorem correctionStep_none (c d : Option ℤ) : correctionStep none c d = c := by
  cases d <;> rfl

theorem correctionStep_keep (c : ℤ) (h : 0 ≤ c) :
    correctionStep (some c) (some c) (some 0) = some c := by
  simp only [correctionStep]
  rw [show c * (100 - 0) = c * 100 by ring, roundHalfEven_cancel]
  rw [if_pos ⟨by omega, by omega⟩]

theorem ruleSteps_m_none (m0 c0 d0 : Option ℤ)
    (h : (ruleSteps m0 c0 d0).1 = none) :
    (ruleSteps m0 c0 d0).2.1 = none ∨ (ruleSteps m0 c0 d0).2.1 = some 0 := by
  rcases m0 with _ | mv <;> rcases c0 with _ | cv <;> rcases d0 with _ | dv <;>
    simp only [ruleSteps] at h ⊢ <;> split_ifs at h ⊢ <;> simp_all

theorem mrp_present_of_current_pos (m0 c0 d0 : Option ℤ) (C : ℤ)
    (hC : (reconcileTriangle m0 c0 d0).2.1 = some C) (hpos : 0 < C) :
    (reconcileTriangle m0 c0 d0).1 ≠ none := by
  intro hnone
  rw [reconcileTriangle_eq] at hC hnone
  simp only at hC hnone
  rcases ruleSteps_m_none m0 c0 d0 hnone with h | h <;>
    rw [hnone, correctionStep_none, h] at hC
  · exact Option.noConfusion hC
  · have h0 := Option.some.inj hC
    omega

theorem ruleOne_repair (m0 c0 d0 : Option ℤ) (c : ℤ)
    (hm : m0 = none ∨ m0 = some 0) (hc : c0 = some c) (hpos : 0 < c) :
    reconcileTriangle m0 c0 d0 = (some c, some c, some 0) := by
  subst hc
  have hcond : (m0 = none ∨ m0 = some 0) ∧
      ¬(some c : Option ℤ) = none ∧ ¬(some c : Option ℤ) = some 0 := by
    refine ⟨hm, by simp, by simp; omega⟩
  rw [reconcileTriangle_eq]
  simp only [ruleSteps, if_pos hcond]
  rw [if_neg (by omega : ¬(0 : ℤ) < 0)]
  simp only []
  rw [correctionStep_keep c (le_of_lt hpos)]

/-- Claim C5: when the extracted MRP is absent or zero and the extracted Current
Price is a positive number `c`, the reconciler sets `MRP = c`, `Discount = 0` and
keeps `CurrentPrice = c`; moreover (fourth conjunct) MRP is never absent in any
reconciled triple whose CurrentPrice is present and positive. -/
theorem missing_mrp_repaired (item : RawItem) (c : ℤ)
    (hm : pyIntOpt (extract_price (clean_text item.mrp)) = none ∨
          pyIntOpt (extract_price (clean_text item.mrp)) = some 0)
    (hc : pyIntOpt (extract_price (clean_text item.currentPrice)) = some c)
    (hpos : 0 < c) :
    (preprocess_data item).mrp = toString c ∧
    (preprocess_data item).currentPrice = toString c ∧
    (preprocess_data item).discount = "0" ∧
    (∀ m0 c0 d0 C, (reconcileTriangle m0 c0 d0).2.1 = some C → 0 < C →
      (reconcileTriangle m0 c0 d0).1 ≠ none) := by
  have ht : parsedTriangle item = (some c, some c, some 0) :=
    ruleOne_repair _ _ _ c hm hc hpos
  refine ⟨?_, ?_, ?_, fun m0 c0 d0 C hC h0 => mrp_present_of_current_pos m0 c0 d0 C hC h0⟩
  · show optIntStr (parsedTriangle item).1 = toString c
    rw [ht]
    rfl
  · show optIntStr (parsedTriangle item).2.1 = toString c
    rw [ht]
    rfl
  · show optIntStr (parsedTriangle item).2.2 = "0"
    rw [ht]
    show optIntStr (some (0 : ℤ)) = "0"
    decide

/-- Witness for `missing_mrp_repaired`: Scenario A, raw
`{MRP:"", CurrentPrice:"999", Discount:""}`. -/
theorem missing_mrp_repaired_witness :
    (pyIntOpt (extract_price (clean_text "")) = none ∧
     pyIntOpt (extract_price (clean_text "999")) = some 999 ∧ (0 : ℤ) < 999) ∧
    (preprocess_data ⟨"t", "b", "", "999", "", "", ""⟩).mrp = toString (999 : ℤ) ∧
    (preprocess_data ⟨"t", "b", "", "999", "", "", ""⟩).currentPrice = toString (999 : ℤ) ∧
    (preprocess_data ⟨"t", "b", "", "999", "", "", ""⟩).discount = "0" := by
  have h := missing_mrp_repaired ⟨"t", "b", "", "999", "", "", ""⟩ 999
    (Or.inl (by decide)) (by decide) (by decide)
  exact ⟨⟨by decide, by decide, by decide⟩, h.1, h.2.1, h.2.2.1⟩

theorem correctionStep_present (M D : ℤ) (c : Option ℤ) :
    correctionStep (some M) c (some D) ≠ none ∧
    ((correctionStep (some M) c (some D)).getD 0 = roundHalfEven (M * (100 - D)) 100 ∨
     (19 * roundHalfEven (M * (100 - D)) 100 ≤
        20 * (correctionStep (some M) c (some D)).getD 0 ∧
      20 * (correctionStep (some M) c (some D)).getD 0 ≤
        21 * roundHalfEven (M * (100 - D)) 100)) := by
  rcases c with _ | cv
  · simp [correctionStep]
  · simp only [correctionStep]
    split_ifs with hband
    · exact ⟨by simp, Or.inr (by simpa using hband)⟩
    · exact ⟨by simp, Or.inl (by simp)⟩

/-- Claim C4 (amended): in every reconciled triple with MRP and Discount present,
CurrentPrice is present, and whenever the expected price
`e = round(MRP*(1-Discount/100))` is non-negative (in particular whenever the
discount is at most 100), `abs(CurrentPrice - e) <= 0.05 * e`; an observed price
outside the 5% band was overwritten with `e`. For a discount above 100 the
expected price is negative and the inequality fails. -/
theorem triangle_consistency (m0 c0 d0 : Option ℤ) (M D : ℤ)
    (hm : (reconcileTriangle m0 c0 d0).1 = some M)
    (hd : (reconcileTriangle m0 c0 d0).2.2 = some D)
    (he : 0 ≤ roundHalfEven (M * (100 - D)) 100) :
    (reconcileTriangle m0 c0 d0).2.1 ≠ none ∧
    |((reconcileTriangle m0 c0 d0).2.1.getD 0 : ℚ) -
        (roundHalfEven (M * (100 - D)) 100 : ℚ)| ≤
      (1/20 : ℚ) * (roundHalfEven (M * (100 - D)) 100 : ℚ) := by
  rw [reconcileTriangle_eq] at hm hd ⊢
  simp only at hm hd ⊢
  rw [hm, hd]
  obtain ⟨h1, h2⟩ := correctionStep_present M D (ruleSteps m0 c0 d0).2.1
  refine ⟨h1, ?_⟩
  have heq : (0 : ℚ) ≤ (roundHalfEven (M * (100 - D)) 100 : ℚ) := by exact_mod_cast he
  rcases h2 with h2 | ⟨hlo, hhi⟩
  · rw [h2, sub_self, abs_zero]
    linarith
  · rw [abs_le]
    have hlo' : (19 : ℚ) * (roundHalfEven (M * (100 - D)) 100 : ℚ) ≤
        20 * ((correctionStep (some M) (ruleSteps m0 c0 d0).2.1 (some D)).getD 0 : ℚ) := by
      exact_mod_cast hlo
    have hhi' : (20 : ℚ) * ((correctionStep (some M) (ruleSteps m0 c0 d0).2.1 (some D)).getD 0 : ℚ) ≤
        21 * (roundHalfEven (M * (100 - D)) 100 : ℚ) := by
      exact_mod_cast hhi
    constructor <;> linarith

/-- Witness for `triangle_consistency`: Scenario C, parsed triple
`(1000, 950, 20)`, expected price 800, corrected current 800. -/
theorem triangle_consistency_witness :
    (reconcileTriangle (some 1000) (some 950) (some 20)).1 = some 1000 ∧
    (reconcileTriangle (some 1000) (some 950) (some 20)).2.2 = some 20 ∧
    0 ≤ roundHalfEven (1000 * (100 - 20)) 100 ∧
    (reconcileTriangle (some 1000) (some 950) (some 20)).2.1 ≠ none ∧
    |((reconcileTriangle (some 1000) (some 950) (some 20)).2.1.getD 0 : ℚ) -
        (roundHalfEven (1000 * (100 - 20)) 100 : ℚ)| ≤
      (1/20 : ℚ) * (roundHalfEven (1000 * (100 - 20)) 100 : ℚ) := by
  have h := triangle_consistency (some 1000) (some 950) (some 20) 1000 20
    (by decide) (by decide) (by decide)
  exact ⟨by decide, by decide, by decide, h.1, h.2⟩

/-- Claim C4, counterexample: raw `{MRP:"1000", CurrentPrice:"", Discount:"200%"}`
reconciles with MRP and Discount present and CurrentPrice `-1000`, yet
`abs(CurrentPrice - round(MRP*(1-Discount/100))) = 0` is not bounded by
`0.05 * round(MRP*(1-Discount/100)) = -50`: the claimed inequality fails when the
discount exceeds 100. -/
theorem triangle_consistency_cex :
    (preprocess_data ⟨"t", "b", "1000", "", "200%", "", ""⟩).mrp = "1000" ∧
    (preprocess_data ⟨"t", "b", "1000", "", "200%", "", ""⟩).discount = "200" ∧
    (preprocess_data ⟨"t", "b", "1000", "", "200%", "", ""⟩).currentPrice = "-1000" ∧
    reconcileTriangle (some 1000) none (some 200) = (some 1000, some (-1000), some 200) ∧
    ¬ (|((reconcileTriangle (some 1000) none (some 200)).2.1.getD 0 : ℚ) -
          (roundHalfEven (1000 * (100 - 200)) 100 : ℚ)| ≤
        (1/20 : ℚ) * (roundHalfEven (1000 * (100 - 200)) 100 : ℚ)) := by
  refine ⟨by decide, by decide, by decide, by decide, ?_⟩
  have h1 : roundHalfEven (1000 * (100 - 200)) 100 = -1000 := by decide
  have h2 : (reconcileTriangle (some 1000) none (some 200)).2.1.getD 0 = -1000 := by decide
  rw [h1, h2]
  norm_num

theorem pyIntOpt_extract_discount_nonneg (s : String) (d : ℤ)
    (h : pyIntOpt (extract_discount s) = some d) : 0 ≤ d := by
  rw [pyIntOpt] at h
  split_ifs at h
  have hd := Option.some.inj h
  subst hd
  exact Int.natCast_nonneg _

theorem discount_stays_nonneg (m0 c0 : Option ℤ) (d : ℤ) (hd : 0 ≤ d) :
    (reconcileTriangle m0 c0 (some d)).2.2 = some d ∨
    (reconcileTriangle m0 c0 (some d)).2.2 = some 0 := by
  rw [reconcileTriangle_eq]
  simp only
  rcases m0 with _ | mv <;> rcases c0 with _ | cv <;>
    simp only [ruleSteps] <;> split_ifs <;> simp_all <;>
    rw [if_neg (show ¬ d < 0 by omega)] <;> simp

theorem firstDigitCommaRun_chars (l : List Char) (run : List Char)
    (h : firstDigitCommaRun l = some run) :
    ∀ x ∈ run, (x.isDigit || x == ',') = true := by
  induction l with
  | nil => exact absurd h (by simp [firstDigitCommaRun])
  | cons c cs ih =>
    rw [firstDigitCommaRun] at h
    split_ifs at h with hc
    · cases Option.some.inj h
      intro x hx
      rcases List.mem_cons.1 hx with rfl | hx
      · exact hc
      · have := List.mem_takeWhile_imp hx
        simpa using this
    · exact ih h

theorem extract_reviews_count_digits (s : String) :
    extract_reviews_count s = "" ∨
    (extract_reviews_count s).data.all Char.isDigit = true := by
  rw [extract_reviews_count]
  split_ifs
  · exact Or.inl rfl
  · rcases hfr : firstDigitCommaRun s.data with _ | run
    · exact Or.inl rfl
    · right
      simp only [hfr]
      rw [List.all_eq_true]
      intro x hx
      have hx' : x ∈ run.filter (fun c => c ≠ ',') := hx
      rw [List.mem_filter] at hx'
      have hch := firstDigitCommaRun_chars s.data run hfr x hx'.1
      have hne : x ≠ ',' := of_decide_eq_true hx'.2
      rw [Bool.or_eq_true] at hch
      rcases hch with h | h
      · exact h
      · exact absurd (by simpa using h) hne

theorem azRatingSearch_chars (l : List Char) (run : List Char)
    (h : azRatingSearch l = some run) :
    ∀ x ∈ run, (x.isDigit || x == '.') = true := by
  induction l with
  | nil => exact absurd h (by simp [azRatingSearch])
  | cons c cs ih =>
    rw [azRatingSearch] at h
    split_ifs at h with hc
    · split at h
      · rename_i d t hdw
        split_ifs at h with hd
        · cases Option.some.inj h
          intro x hx
          simp only [List.mem_append, List.mem_cons] at hx
          rcases hx with (rfl | hx) | (rfl | rfl | hx)
          · simp [hc]
          · simp [List.mem_takeWhile_imp hx]
          · simp
          · simp [hd]
          · simp [List.mem_takeWhile_imp hx]
        · exact ih h
      · exact ih h
    · exact ih h

theorem extract_rating_charset (s : String) :
    extract_rating s = "" ∨
    (extract_rating s).data.all (fun c => c.isDigit || c == '.') = true := by
  rw [extract_rating]
  split_ifs
  · exact Or.inl rfl
  · rcases hm : azRatingSearch s.data with _ | run
    · exact Or.inl rfl
    · right
      simp only [hm]
      rw [List.all_eq_true]
      intro x hx
      exact azRatingSearch_chars s.data run hm x hx

/-- Claim C1 (amended): in every reconciled record, Reviews (when present) is a
digit string, hence non-negative; Rating (when present) is made of digits and a
dot, hence non-negative; and Discount, whenever the raw discount text itself
yields a number, is a present, non-negative integer. A discount inferred from
MRP and CurrentPrice can however be negative, Discount can exceed 100 when the
raw text does, and Rating can exceed 5; none of the claimed upper bounds holds. -/
theorem reconciled_bounds (item : RawItem) :
    ((preprocess_data item).reviews = "" ∨
      (preprocess_data item).reviews.data.all Char.isDigit = true) ∧
    ((preprocess_data item).rating = "" ∨
      (preprocess_data item).rating.data.all (fun c => c.isDigit || c == '.') = true) ∧
    (∀ d : ℤ, pyIntOpt (extract_discount (clean_text item.discount)) = some d →
      (parsedTriangle item).2.2 ≠ none ∧
      0 ≤ (parsedTriangle item).2.2.getD 0 ∧
      (preprocess_data item).discount = optIntStr (parsedTriangle item).2.2) := by
  refine ⟨extract_reviews_count_digits _, extract_rating_charset _, ?_⟩
  intro d hd
  have hnn := pyIntOpt_extract_discount_nonneg _ _ hd
  have htri := discount_stays_nonneg
    (pyIntOpt (extract_price (clean_text item.mrp)))
    (pyIntOpt (extract_price (clean_text item.currentPrice))) d hnn
  have hpt : (parsedTriangle item).2.2 = some d ∨ (parsedTriangle item).2.2 = some 0 := by
    rw [parsedTriangle, hd]
    exact htri
  refine ⟨?_, ?_, rfl⟩
  · rcases hpt with h | h <;> simp [h]
  · rcases hpt with h | h <;> rw [h]
    · simpa using hnn
    · simp

/-- Witness for `reconciled_bounds`: raw discount text `"20%"` parses to 20. -/
theorem reconciled_bounds_witness :
    pyIntOpt (extract_discount (clean_text "20%")) = some 20 ∧
    (parsedTriangle ⟨"t", "b", "1000", "800", "20%", "4.2", "1,234"⟩).2.2 ≠ none ∧
    0 ≤ (parsedTriangle ⟨"t", "b", "1000", "800", "20%", "4.2", "1,234"⟩).2.2.getD 0 ∧
    (preprocess_data ⟨"t", "b", "1000", "800", "20%", "4.2", "1,234"⟩).discount =
      optIntStr (parsedTriangle ⟨"t", "b", "1000", "800", "20%", "4.2", "1,234"⟩).2.2 := by
  have h := (reconciled_bounds ⟨"t", "b", "1000", "800", "20%", "4.2", "1,234"⟩).2.2 20 (by decide)
  exact ⟨by decide, h.1, h.2.1, h.2.2⟩

/-- Claim C1, counterexample: raw `{MRP:"100", CurrentPrice:"150", Discount:""}`
reconciles to Discount `-50`: the inferred discount from a current price above
MRP is negative, so the claimed `Discount >= 0` fails (the negative-discount
repair runs before the discount-fill step and never sees this value). -/
theorem reconciled_bounds_cex :
    (preprocess_data ⟨"t", "b", "100", "150", "", "", ""⟩).discount = "-50" ∧
    reconcileTriangle (some 100) (some 150) none = (some 100, some 150, some (-50)) ∧
    (-50 : ℤ) < 0 := by
  refine ⟨by decide, by decide, by decide⟩

theorem azRatingSearch_all_digits (l : List Char) (h : l.all Char.isDigit = true) :
    azRatingSearch l = none := by
  induction l with
  | nil => rfl
  | cons c cs ih =>
    rw [List.all_cons] at h
    obtain ⟨hc, hcs⟩ := Bool.and_eq_true_iff.1 h
    rw [azRatingSearch, if_pos hc]
    have hdw : cs.dropWhile Char.isDigit = [] :=
      List.dropWhile_eq_nil_iff.2 (fun x hx => List.all_eq_true.1 hcs x hx)
    rw [hdw]
    exact ih hcs

theorem fkRatingSearch_all_digits (c : Char) (cs : List Char)
    (h : (c :: cs).all Char.isDigit = true) :
    fkRatingSearch (c :: cs) = some (c :: cs) := by
  rw [List.all_cons] at h
  obtain ⟨hc, hcs⟩ := Bool.and_eq_true_iff.1 h
  rw [fkRatingSearch, if_pos hc]
  have hdw : cs.dropWhile Char.isDigit = [] :=
    List.dropWhile_eq_nil_iff.2 (fun x hx => List.all_eq_true.1 hcs x hx)
  have htw : cs.takeWhile Char.isDigit = cs :=
    List.takeWhile_eq_self_iff.2 (fun x hx => List.all_eq_true.1 hcs x hx)
  rw [hdw, htw]

/-- Claim C6 (amended): on a bare-integer rating text (non-empty, digits only),
Flipkart's `extract_rating` returns the text with `".0"` appended, but Amazon's
`extract_rating` requires a decimal point in the match and returns the empty
string (rating absent); the normalization holds only for the Flipkart variant. -/
theorem bare_integer_rating (s : String) (hne : s ≠ "")
    (hdig : s.data.all Char.isDigit = true) :
    flipkart_extract_rating s = s ++ ".0" ∧ extract_rating s = "" := by
  constructor
  · rw [flipkart_extract_rating, if_neg hne]
    obtain ⟨l⟩ := s
    rcases l with _ | ⟨c, cs⟩
    · exact absurd rfl hne
    · have hdig' : (c :: cs).all Char.isDigit = true := hdig
      show (match fkRatingSearch (c :: cs) with
        | some m => if '.' ∈ m then String.mk m else String.mk m ++ ".0"
        | none => "") = String.mk (c :: cs) ++ ".0"
      rw [fkRatingSearch_all_digits c cs hdig']
      have hdot : '.' ∉ (c :: cs) := by
        intro hmem
        have hd := List.all_eq_true.1 hdig' '.' hmem
        simp at hd
      show (if '.' ∈ (c :: cs) then String.mk (c :: cs)
        else String.mk (c :: cs) ++ ".0") = String.mk (c :: cs) ++ ".0"
      rw [if_neg hdot]
  · rw [extract_rating, if_neg hne]
    rw [azRatingSearch_all_digits s.data hdig]

/-- Witness for `bare_integer_rating`: the rating text `"4"`. -/
theorem bare_integer_rating_witness :
    ("4" : String) ≠ "" ∧ ("4" : String).data.all Char.isDigit = true ∧
    flipkart_extract_rating "4" = "4" ++ ".0" ∧ extract_rating "4" = "" := by
  have h := bare_integer_rating "4" (by decide) (by decide)
  exact ⟨by decide, by decide, h.1, h.2⟩

set_option maxRecDepth 4000 in
/-- Claim C7 (amended): a numeric field whose text cannot be coerced to a number
is treated as absent, and when none of the three price fields parses, no repair
applies and all three are emitted as the empty string (a parse-failed field can
however be refilled by the repair rules from the other fields). The reconciler
is not total: `extract_price` computes `int(float(t))` catching only
`ValueError`, so a price text at or above the double overflow threshold — here
309 nines — makes `float` return `inf` and `int(inf)` raise an OverflowError
out of `preprocess_data`, while a price text below the threshold does not
raise. -/
theorem reconciler_absent_and_overflow (item : RawItem)
    (h1 : extract_price (clean_text item.mrp) = "")
    (h2 : extract_price (clean_text item.currentPrice) = "")
    (h3 : extract_discount (clean_text item.discount) = "") :
    ((preprocess_data item).mrp = "" ∧
     (preprocess_data item).currentPrice = "" ∧
     (preprocess_data item).discount = "") ∧
    preprocess_data_raises
      ⟨"t", "b", String.mk (List.replicate 309 '9'), "", "", "", ""⟩ = true ∧
    preprocess_data_raises ⟨"t", "b", "999", "999", "", "", ""⟩ = false := by
  have ht : parsedTriangle item = (none, none, none) := by
    rw [parsedTriangle, h1, h2, h3]
    rfl
  refine ⟨⟨?_, ?_, ?_⟩, by decide, by decide⟩
  · show optIntStr (parsedTriangle item).1 = ""
    rw [ht]
    rfl
  · show optIntStr (parsedTriangle item).2.1 = ""
    rw [ht]
    rfl
  · show optIntStr (parsedTriangle item).2.2 = ""
    rw [ht]
    rfl

set_option maxRecDepth 4000 in
/-- Witness for `reconciler_absent_and_overflow`: all three price texts are
garbage, and the 309-nines price text reaches the overflow error path. -/
theorem reconciler_absent_and_overflow_witness :
    extract_price (clean_text "abc") = "" ∧
    extract_price (clean_text "xyz") = "" ∧
    extract_discount (clean_text "pct") = "" ∧
    (preprocess_data ⟨"t", "b", "abc", "xyz", "pct", "", ""⟩).mrp = "" ∧
    (preprocess_data ⟨"t", "b", "abc", "xyz", "pct", "", ""⟩).currentPrice = "" ∧
    (preprocess_data ⟨"t", "b", "abc", "xyz", "pct", "", ""⟩).discount = "" ∧
    preprocess_data_raises
      ⟨"t", "b", String.mk (List.replicate 309 '9'), "", "", "", ""⟩ = true := by
  have h := reconciler_absent_and_overflow ⟨"t", "b", "abc", "xyz", "pct", "", ""⟩
    (by decide) (by decide) (by decide)
  exact ⟨by decide, by decide, by decide, h.1.1, h.1.2.1, h.1.2.2, h.2.1⟩

theorem amazonRow_cells (keys : List String) (it : ScrapedItem) (cell : String × String)
    (h : cell ∈ amazonRow keys it) : cell.2 ≠ "" := by
  rw [amazonRow, List.mem_append] at h
  rcases h with h | h <;> obtain ⟨a, ha, rfl⟩ := List.mem_map.1 h <;>
    exact cellValue_ne_empty _

theorem flipkartRow_cells (keys : List String) (it : ScrapedItem) (cell : String × String)
    (h : cell ∈ flipkartRow keys it) : cell.2 ≠ "" := by
  rw [flipkartRow, List.mem_append] at h
  rcases h with h | h <;> obtain ⟨a, ha, rfl⟩ := List.mem_map.1 h <;>
    exact cellValue_ne_empty _

/-- Claim C9: every cell of every emitted row is a non-empty string — any absent
or whitespace-only field or spec value is written as the placeholder `"N/A"` —
and rows are emitted exactly for the items whose Brand is non-blank (Amazon),
respectively non-blank Brand plus complete pricing data (Flipkart). -/
theorem placeholder_completeness (allKeys : List String) (items : List ScrapedItem) :
    ((amazonRows allKeys items).all fun row => row.all fun cell => !(cell.2 == "")) = true ∧
    ((flipkartRows allKeys items).all fun row => row.all fun cell => !(cell.2 == "")) = true ∧
    (amazonRows allKeys items).length =
      (items.filter fun it => !(pyStrip it.brand == "")).length ∧
    (flipkartRows allKeys items).length =
      ((items.filter fun it => !(pyStrip it.brand == "")).filter
        has_complete_pricing_data).length := by
  refine ⟨?_, ?_, List.length_map _ _, List.length_map _ _⟩
  · rw [List.all_eq_true]
    intro row hrow
    rw [List.all_eq_true]
    intro cell hcell
    obtain ⟨it, hit, rfl⟩ := List.mem_map.1 hrow
    have hne := amazonRow_cells _ _ _ hcell
    simpa using hne
  · rw [List.all_eq_true]
    intro row hrow
    rw [List.all_eq_true]
    intro cell hcell
    obtain ⟨it, hit, rfl⟩ := List.mem_map.1 hrow
    have hne := flipkartRow_cells _ _ _ hcell
    simpa using hne
